import Mathlib

/-!
# ledger `value_t` (src/value.h): a shallow embedding

`value_t` is a hand-written tagged union: a byte buffer `data` and a tag `type`.
It is embedded as an inductive type with one constructor per tag, the payload
of the active variant being the constructor's argument.  Member functions that
change the receiver are functions from the state before to the state after;
member functions that can throw return a `result`.

The header uses `amount_t`, `balance_t`, `balance_pair_t` (amount.h,
balance.h) and declares some members (`to_sequence`, ...) without defining
them; these are modelled from the specification and marked as such.
`destroy()` releases the payload a value holds before a new one is written
over it: here the new state simply takes the place of the old one.

Lines 134-269 of the header (the typed overloads of `operator=`) stand between
`#if 0` and `#endif`: the preprocessor removes them and they are no part of
the program.  The only assignment operator of the class is
`operator=(const value_t&)` (line 133).  An assignment `*this = val` of an
`amount_t`, a `balance_t`, a `balance_pair_t` or a pointer therefore first
converts `val` to a temporary `value_t`, by the converting constructor for its
type, and hands the temporary to that operator; this is what is embedded
here (`assign_*`, `ctor_by_assignment`).
-/

namespace ledger

/-! ## Collaborator types -/

/-- Modelled from the spec: `amount_t` of amount.h, which is not among the
sources: a monetary quantity with its commodity.  The quantity is counted in
the smallest unit of the commodity. -/
structure amount_t where
  quantity : Int
  commodity : String
deriving DecidableEq, Repr

/-- Modelled from the spec: `amount_t::realzero()` of amount.h: the quantity is
exactly zero. -/
def amount_t.realzero (a : amount_t) : Bool := a.quantity == 0

/-- Modelled from the spec: `balance_t` of balance.h, which is not among the
sources: a mapping from commodity to Amount, kept as the list of its entries
(`amounts`) in iteration order. -/
structure balance_t where
  amounts : List (String × amount_t)
deriving DecidableEq, Repr

/-- Modelled from the spec: `balance_t::realzero()` of balance.h: the balance
is net-zero, no entry holds a nonzero amount. -/
def balance_t.realzero (b : balance_t) : Bool := b.amounts.all (fun p => p.2.realzero)

/-- Modelled from the spec: `balance_pair_t` of balance.h, which is not among
the sources: a Balance (quantity) and an optional Balance (cost basis). -/
structure balance_pair_t where
  quantity : balance_t
  cost : Option balance_t
deriving DecidableEq, Repr

/-- Modelled from the spec: `balance_pair_t::realzero()` of balance.h: the pair
is net-zero, its total (the quantity) is zero. -/
def balance_pair_t.realzero (p : balance_pair_t) : Bool := p.quantity.realzero

/-! ## The value -/

/-- The tag `value_t::type_t` (lines 36-47). -/
inductive type_t
  | BOOLEAN
  | INTEGER
  | DATETIME
  | AMOUNT
  | BALANCE
  | BALANCE_PAIR
  | STRING
  | XML_NODE
  | POINTER
  | SEQUENCE
deriving DecidableEq, Repr

/-- The state of a `value_t`: the tag `type` together with what `data` holds
for that tag.  `long` and `moment_t` are integers, the borrowed `xml::node_t *`
and `void *` are addresses, the string and the sequence behind the owned
pointers are the text and the list of elements. -/
inductive value_t
  | boolean (val : Bool)
  | integer (val : Int)
  | datetime (val : Int)
  | amount (val : amount_t)
  | balance (val : balance_t)
  | balance_pair (val : balance_pair_t)
  | string (val : String)
  | xml_node (val : Nat)
  | pointer (val : Nat)
  | sequence (val : List value_t)

/-- The member `type`. -/
def value_t.type : value_t → type_t
  | .boolean _ => .BOOLEAN
  | .integer _ => .INTEGER
  | .datetime _ => .DATETIME
  | .amount _ => .AMOUNT
  | .balance _ => .BALANCE
  | .balance_pair _ => .BALANCE_PAIR
  | .string _ => .STRING
  | .xml_node _ => .XML_NODE
  | .pointer _ => .POINTER
  | .sequence _ => .SEQUENCE

/-- What a member function that can throw comes back with: a result, the
exception `value_error` (line 455), or `undefined` where C++ gives the
operation no meaning (an access outside a `std::vector`). -/
inductive result (α : Type)
  | ok (a : α)
  | value_error
  | undefined
deriving DecidableEq, Repr

/-! ## Constructors (lines 49-103) -/

/-- The default constructor `value_t()`, lines 49-53. -/
def value_t.ctor : value_t := .integer 0

/-- The constructor `value_t(const bool)`, lines 59-63. -/
def value_t.ctor_bool (val : Bool) : value_t := .boolean val

/-- The constructor `value_t(const moment_t)`, lines 69-73. -/
def value_t.ctor_moment (val : Int) : value_t := .datetime val

/-- The constructor `value_t(const unsigned long)`, lines 74-78;
`of_ulong` is `amount_t(unsigned long)` of amount.h. -/
def value_t.ctor_ulong (of_ulong : Nat → amount_t) (val : Nat) : value_t :=
  .amount (of_ulong val)

/-- The constructor `value_t(const double)`, lines 79-83; `of_double` is
`amount_t(double)` of amount.h, over whatever type `D` stands for `double`. -/
def value_t.ctor_double {D : Type} (of_double : D → amount_t) (val : D) : value_t :=
  .amount (of_double val)

/-- The constructor `value_t(const char *)`, lines 94-98; `of_cstr` is
`amount_t(const char *)` of amount.h, which parses the text and gives `none`
where it throws. -/
def value_t.ctor_cstr (of_cstr : String → Option amount_t) (val : String) :
    Option value_t :=
  (of_cstr val).map .amount

/-- The constructor `value_t(const amount_t&)`, lines 99-103: the amount is
copied into `data` and the tag set to AMOUNT, whatever the amount is. -/
def value_t.ctor_amount (val : amount_t) : value_t := .amount val

/-! ## Strings (lines 84-93, 271-280) -/

/-- The member `set_string(const string& str)`, lines 271-280.  `str` is a
reference; `in_receiver` says that the string it refers to lives in storage
the receiver owns (its own string, or one held by an element of its
sequence).  The string of a STRING receiver is assigned `str` (line 277), which
leaves a string assigned to itself as it is.  Any other receiver is destroyed
first (line 273) and only then is `str` copied into the new string (line
274): a `str` that lived in the receiver is read after it was released, which
has no defined meaning.  The receiver after the call is the result. -/
def value_t.set_string (self : value_t) (str : String) (in_receiver : Bool) :
    result value_t :=
  match self with
  | .string _ => .ok (.string str)
  | _ => if in_receiver then .undefined else .ok (.string str)

/-- The constructor `value_t(const string& val, bool literal = false)`, lines
84-93.  With `literal` the tag is set to INTEGER (`data` holds whatever was
there, `junk`) and `set_string(val)` is called, on a receiver that is being
constructed and owns nothing, so that `val` does not live in it; without it
the amount parsed from `val` is stored.  `of_string` is
`amount_t(const string&)` of amount.h, which gives `none` where it throws. -/
def value_t.ctor_string (of_string : String → Option amount_t) (junk : Int)
    (val : String) (literal : Bool := false) : Option value_t :=
  if literal then
    match (value_t.integer junk).set_string val false with
    | .ok v => some v
    | _ => none
  else (of_string val).map .amount

/-! ## Sequences (lines 291-309) -/

/-- Modelled from the spec: `to_sequence()`, declared at line 291 and defined
outside the header: reading through an accessor that does not match the active
variant is a value-type error and promotes nothing; on a SEQUENCE it gives the
sequence behind the stored pointer.  The receiver is returned with the result. -/
def value_t.to_sequence (self : value_t) : value_t × result (List value_t) :=
  match self with
  | .sequence seq => (self, .ok seq)
  | _ => (self, .value_error)

/-- The library's `std::vector<value_t>::operator[]` on an `int` argument: the
argument is converted to the unsigned 64-bit `size_type`; a position within
the vector gives its element, any other has no defined meaning. -/
def sequence_at (seq : List value_t) (index : Int) : result value_t :=
  if h : (index % 2 ^ 64).toNat < seq.length then
    .ok (seq.get ⟨(index % 2 ^ 64).toNat, h⟩)
  else .undefined

/-- The member `operator[](const int index)`, lines 293-297: `to_sequence()`,
then `(*seq)[index]`.  The pointer of a SEQUENCE is never null, so
`assert(seq)` holds. -/
def value_t.index (self : value_t) (index : Int) : value_t × result value_t :=
  match self.to_sequence with
  | (self1, .ok seq) => (self1, sequence_at seq index)
  | (self1, .value_error) => (self1, .value_error)
  | (self1, .undefined) => (self1, .undefined)

/-- The member `push_back(const value_t& val)`, lines 299-303:
`to_sequence()`, then `seq->push_back(val)` on the owned vector. -/
def value_t.push_back (self : value_t) (val : value_t) : value_t × result Unit :=
  match self.to_sequence with
  | (_, .ok seq) => (.sequence (seq ++ [val]), .ok ())
  | (self1, .value_error) => (self1, .value_error)
  | (self1, .undefined) => (self1, .undefined)

/-- The member `size()`, lines 305-309: `to_sequence()`, then `seq->size()`. -/
def value_t.size (self : value_t) : value_t × result Nat :=
  match self.to_sequence with
  | (self1, .ok seq) => (self1, .ok seq.length)
  | (self1, .value_error) => (self1, .value_error)
  | (self1, .undefined) => (self1, .undefined)

/-! ## The canonicalizer in the words of the specification

The header declares `simplify()` (line 131) and the arithmetic operators
(lines 311-314) without defining them; what canonical form a result is
brought to is taken from section 4.2 of the specification. -/

/-- Modelled from the spec: the Amount rule of the canonicalizer: an amount
that is exactly zero becomes Integer 0, any other stays as it is. -/
def install_amount_spec (a : amount_t) : value_t :=
  if a.realzero then .integer 0 else .amount a

/-- Modelled from the spec: the Balance rule of the canonicalizer: a net-zero
balance becomes Integer 0, a balance of exactly one commodity that commodity's
Amount (canonicalized in turn), any other stays as it is. -/
def install_balance_spec (b : balance_t) : value_t :=
  if b.realzero then .integer 0
  else match b.amounts with
    | [p] => install_amount_spec p.2
    | _ => .balance b

/-- Modelled from the spec: the BalancePair rule of the canonicalizer: a
net-zero pair becomes Integer 0, a pair without cost basis its quantity
(canonicalized in turn), any other stays as it is. -/
def install_balance_pair_spec (p : balance_pair_t) : value_t :=
  if p.realzero then .integer 0
  else match p.cost with
    | none => install_balance_spec p.quantity
    | some _ => .balance_pair p

/-! ## Construction through assignment (lines 104-123), as compiled -/

/-- The shape shared by the constructors of lines 104-123: the tag is
initialised to INTEGER (`data` holds whatever was there, `junk`), then
`*this = val`.  With lines 134-269 removed by `#if 0`, the only `operator=` of
the class is `operator=(const value_t&)` (line 133, here `copy_assign`,
receiver first), so `val` is first converted to a temporary `value_t`, by the
converting constructor for its type, which is this very constructor.  `fuel`
bounds the depth of nested constructor calls; `none` says that the
constructor has not returned within that depth. -/
def ctor_by_assignment {α : Type} (copy_assign : value_t → value_t → value_t)
    (junk : Int) : Nat → α → Option value_t
  | 0, _ => none
  | fuel + 1, val =>
    match ctor_by_assignment copy_assign junk fuel val with
    | some temp => some (copy_assign (value_t.integer junk) temp)
    | none => none

/-- The constructor `value_t(const balance_t& val)`, lines 104-107. -/
def value_t.ctor_balance (copy_assign : value_t → value_t → value_t) (junk : Int)
    (fuel : Nat) (val : balance_t) : Option value_t :=
  ctor_by_assignment copy_assign junk fuel val

/-- The constructor `value_t(const balance_pair_t& val)`, lines 108-111. -/
def value_t.ctor_balance_pair (copy_assign : value_t → value_t → value_t) (junk : Int)
    (fuel : Nat) (val : balance_pair_t) : Option value_t :=
  ctor_by_assignment copy_assign junk fuel val

/-- The constructor `value_t(xml::node_t * xml_node)`, lines 112-115; the
pointer is an address. -/
def value_t.ctor_xml_node (copy_assign : value_t → value_t → value_t) (junk : Int)
    (fuel : Nat) (xml_node : Nat) : Option value_t :=
  ctor_by_assignment copy_assign junk fuel xml_node

/-- The constructor `value_t(void * item)`, lines 116-119; the pointer is an
address. -/
def value_t.ctor_pointer (copy_assign : value_t → value_t → value_t) (junk : Int)
    (fuel : Nat) (item : Nat) : Option value_t :=
  ctor_by_assignment copy_assign junk fuel item

/-- The constructor `value_t(sequence_t * seq)`, lines 120-123; the pointer is
`none` when null, else the vector it points to. -/
def value_t.ctor_sequence (copy_assign : value_t → value_t → value_t) (junk : Int)
    (fuel : Nat) (seq : Option (List value_t)) : Option value_t :=
  ctor_by_assignment copy_assign junk fuel seq

/-! ## Assignment of an Amount, a Balance, a BalancePair, as compiled -/

/-- The assignment `*this = val` of an `amount_t`: `val` is converted by
`value_t(const amount_t&)` (lines 99-103) and the temporary handed to
`operator=(const value_t&)` (line 133, here `copy_assign`, receiver first). -/
def value_t.assign_amount (copy_assign : value_t → value_t → value_t) (self : value_t)
    (val : amount_t) : value_t :=
  copy_assign self (value_t.ctor_amount val)

/-- The assignment `*this = val` of a `balance_t`: `val` is converted by
`value_t(const balance_t&)` (lines 104-107) and the temporary, once that
constructor has returned it, handed to `operator=(const value_t&)`. -/
def value_t.assign_balance (copy_assign : value_t → value_t → value_t) (junk : Int)
    (fuel : Nat) (self : value_t) (val : balance_t) : Option value_t :=
  match value_t.ctor_balance copy_assign junk fuel val with
  | some temp => some (copy_assign self temp)
  | none => none

/-- The assignment `*this = val` of a `balance_pair_t`: `val` is converted by
`value_t(const balance_pair_t&)` (lines 108-111) and the temporary, once that
constructor has returned it, handed to `operator=(const value_t&)`. -/
def value_t.assign_balance_pair (copy_assign : value_t → value_t → value_t) (junk : Int)
    (fuel : Nat) (self : value_t) (val : balance_pair_t) : Option value_t :=
  match value_t.ctor_balance_pair copy_assign junk fuel val with
  | some temp => some (copy_assign self temp)
  | none => none

/-- The member `operator==(const value_t& val)`, lines 318-320:
`compare(val) == 0`.  `compare` (declared at line 316, defined outside the
header) returns an `int` or throws. -/
def value_t.op_eq (compare : value_t → value_t → result Int) (self val : value_t) :
    result Bool :=
  match compare self val with
  | .ok c => .ok (decide (c = 0))
  | .value_error => .value_error
  | .undefined => .undefined

/-- The member `operator<(const value_t& val)`, lines 328-330:
`compare(val) < 0`. -/
def value_t.op_lt (compare : value_t → value_t → result Int) (self val : value_t) :
    result Bool :=
  match compare self val with
  | .ok c => .ok (decide (c < 0))
  | .value_error => .value_error
  | .undefined => .undefined

/-! ## Copy, negation, cast, reduction (lines 55-58, 352-390) -/

/-- Modelled from the spec: the copy constructor `value_t(const value_t&)`,
lines 55-58, whose work is done by `operator=(const value_t&)`, declared at
line 133 and defined outside the header: the copy is a duplicate of the same
variant and payload. -/
def value_t.copy (val : value_t) : value_t := val

/-- Modelled from the spec: `operator=(const value_t& val)`, declared at line
133 and defined outside the header: the receiver's current variant is
destroyed and the source duplicated into it. -/
def value_t.copy_assign (_self : value_t) (val : value_t) : value_t := val.copy

/-- Modelled from the spec: negation of an Amount, of amount.h. -/
def amount_t.negate (a : amount_t) : amount_t := ⟨-a.quantity, a.commodity⟩

/-- Modelled from the spec: negation of a Balance, of balance.h: every entry is
negated. -/
def balance_t.negate (b : balance_t) : balance_t :=
  ⟨b.amounts.map (fun p => (p.1, p.2.negate))⟩

/-- Modelled from the spec: negation of a BalancePair, of balance.h: quantity
and cost basis are negated. -/
def balance_pair_t.negate (p : balance_pair_t) : balance_pair_t :=
  ⟨p.quantity.negate, p.cost.map balance_t.negate⟩

/-- Modelled from the spec: `in_place_negate()`, declared at line 360 and
defined outside the header: negation is that of the active variant for
Boolean, Integer, Amount, Balance and BalancePair, and a value-type error for
the other variants.  The receiver after the call is the result.  The negative
of a `long` exists for all but the least `long`; there `-` has no defined
meaning. -/
def value_t.in_place_negate : value_t → result value_t
  | .boolean val => .ok (.boolean (!val))
  | .integer val =>
    if -2 ^ 63 < val ∧ val < 2 ^ 63 then .ok (.integer (-val)) else .undefined
  | .amount val => .ok (.amount val.negate)
  | .balance val => .ok (.balance val.negate)
  | .balance_pair val => .ok (.balance_pair val.negate)
  | _ => .value_error

/-- The member `negate()`, lines 355-359: `temp` is a copy of the receiver,
`temp.in_place_negate()`, `temp` is returned.  The receiver after the call
comes with the result. -/
def value_t.negate (self : value_t) : value_t × result value_t :=
  let temp := self.copy
  (self, temp.in_place_negate)

/-- The member `cast(type_t cast_type)`, lines 370-374: `temp` is a copy of the
receiver, `temp.in_place_cast(cast_type)`, `temp` is returned.
`in_place_cast` is declared at line 364 and defined outside the header. -/
def value_t.cast (in_place_cast : value_t → type_t → result value_t) (self : value_t)
    (cast_type : type_t) : value_t × result value_t :=
  let temp := self.copy
  (self, in_place_cast temp cast_type)

/-- The member `reduce()`, lines 386-390: `temp` is a copy of the receiver,
`temp.in_place_reduce()`, `temp` is returned.  `in_place_reduce` is declared
at line 385 and defined outside the header. -/
def value_t.reduce (in_place_reduce : value_t → result value_t) (self : value_t) :
    value_t × result value_t :=
  let temp := self.copy
  (self, in_place_reduce temp)

/-- Modelled from the spec: `amount_t(long)` of amount.h: the amount of that
quantity and no commodity. -/
def amount_t.of_long (val : Int) : amount_t := ⟨val, ""⟩

/-- Modelled from the spec: `in_place_cast(type_t)`, declared at line 364 and
defined outside the header.  A cast to the variant already held changes
nothing; Balance to Amount needs exactly one commodity and is a value-type
error otherwise; BalancePair to Balance drops the cost basis; the widening
casts Integer to Amount and Amount to Balance always succeed.  The casts the
specification does not describe are left to `rest`. -/
def value_t.in_place_cast (rest : value_t → type_t → result value_t) (self : value_t)
    (cast_type : type_t) : result value_t :=
  if self.type = cast_type then .ok self
  else match self, cast_type with
    | .balance b, .AMOUNT =>
      match b.amounts with
      | [p] => .ok (.amount p.2)
      | _ => .value_error
    | .balance_pair p, .BALANCE => .ok (.balance p.quantity)
    | .integer i, .AMOUNT => .ok (.amount (amount_t.of_long i))
    | .amount a, .BALANCE => .ok (.balance ⟨[(a.commodity, a)]⟩)
    | v, t => rest v t

/-! ## Arithmetic (lines 311-314) -/

/-- Modelled from the spec: addition of Amounts, of amount.h: the quantities
of one commodity add up; amounts of different commodities are rejected. -/
def amount_t.add (a b : amount_t) : Option amount_t :=
  if a.commodity = b.commodity then some ⟨a.quantity + b.quantity, a.commodity⟩ else none

/-- Modelled from the spec: subtraction of Amounts, of amount.h. -/
def amount_t.sub (a b : amount_t) : Option amount_t :=
  if a.commodity = b.commodity then some ⟨a.quantity - b.quantity, a.commodity⟩ else none

/-- Modelled from the spec: adding an Amount to a Balance, of balance.h: the
entry of the amount's commodity grows by it; a commodity not yet present gets
a new entry. -/
def balance_t.add_amount (b : balance_t) (a : amount_t) : balance_t :=
  if b.amounts.any (fun p => p.1 == a.commodity) then
    ⟨b.amounts.map (fun p =>
      if p.1 == a.commodity then (p.1, ⟨p.2.quantity + a.quantity, p.2.commodity⟩) else p)⟩
  else ⟨b.amounts ++ [(a.commodity, a)]⟩

/-- Modelled from the spec: addition of Balances, of balance.h: every entry of
the second is added to the first. -/
def balance_t.add (b c : balance_t) : balance_t :=
  c.amounts.foldl (fun acc p => acc.add_amount p.2) b

/-- Modelled from the spec: `operator+=`, declared at line 311 and defined
outside the header, on Amounts and Balances: the receiver is promoted to the
join of the two variants, the addition is that of the amount or balance type,
and the canonicalizer is applied to the sum.  A
rejected addition is a value-type error.  The pairs of variants not described
here are left to `rest`.  The receiver after the call is the result. -/
def value_t.add_assign (rest : value_t → value_t → result value_t) (self val : value_t) :
    result value_t :=
  match self, val with
  | .amount a, .amount b =>
    match a.add b with
    | some c => .ok (install_amount_spec c)
    | none => .value_error
  | .amount a, .balance b =>
    .ok (install_balance_spec ((balance_t.mk [(a.commodity, a)]).add b))
  | .balance a, .amount b => .ok (install_balance_spec (a.add_amount b))
  | .balance a, .balance b => .ok (install_balance_spec (a.add b))
  | _, _ => rest self val

/-- Modelled from the spec: `operator-=`, declared at line 312 and defined
outside the header, on Amounts and Balances: as `operator+=`, with the
subtraction of the amount or balance type. -/
def value_t.sub_assign (rest : value_t → value_t → result value_t) (self val : value_t) :
    result value_t :=
  match self, val with
  | .amount a, .amount b =>
    match a.sub b with
    | some c => .ok (install_amount_spec c)
    | none => .value_error
  | .amount a, .balance b =>
    .ok (install_balance_spec ((balance_t.mk [(a.commodity, a)]).add b.negate))
  | .balance a, .amount b => .ok (install_balance_spec (a.add_amount b.negate))
  | .balance a, .balance b => .ok (install_balance_spec (a.add b.negate))
  | _, _ => rest self val

/-! ## Values in memory: the owned string and vector (lines 55-58, 271-309, 355-390)

Above, a STRING holds its text and a SEQUENCE its elements.  In the header
they hold a pointer to a string or vector on the free store, and two values
holding the same pointer would share it.  Here the pointer is kept, to state
what copying shares and what a member function writes to. -/

/-- A `value_t` object as it lies in memory: the tag and `data`, which for a
STRING or a SEQUENCE is the address `ptr` of the owned string or vector. -/
inductive object
  | boolean (val : Bool)
  | integer (val : Int)
  | datetime (val : Int)
  | amount (val : amount_t)
  | balance (val : balance_t)
  | balance_pair (val : balance_pair_t)
  | string (ptr : Nat)
  | xml_node (val : Nat)
  | pointer (val : Nat)
  | sequence (ptr : Nat)
deriving DecidableEq

/-- The member `type` of an object. -/
def object.type : object → type_t
  | .boolean _ => .BOOLEAN
  | .integer _ => .INTEGER
  | .datetime _ => .DATETIME
  | .amount _ => .AMOUNT
  | .balance _ => .BALANCE
  | .balance_pair _ => .BALANCE_PAIR
  | .string _ => .STRING
  | .xml_node _ => .XML_NODE
  | .pointer _ => .POINTER
  | .sequence _ => .SEQUENCE

/-- The address on the free store that an object owns, if any. -/
def object.ptr : object → Option Nat
  | .string ptr => some ptr
  | .sequence ptr => some ptr
  | _ => none

/-- The free store: the strings and the vectors made by `new`, by address (the
first entry for an address is the current one), and the address `next` that
the next `new` returns.  The elements of a vector are kept as values. -/
structure heap where
  strings : List (Nat × String)
  sequences : List (Nat × List value_t)
  next : Nat

/-- No string or vector lies at or above `next`. -/
def heap.wf (h : heap) : Prop :=
  (∀ e ∈ h.strings, e.1 < h.next) ∧ (∀ e ∈ h.sequences, e.1 < h.next)

/-- What an object holds, read through its pointer: `none` when the pointer
leads nowhere. -/
def heap.read (h : heap) : object → Option value_t
  | .boolean val => some (.boolean val)
  | .integer val => some (.integer val)
  | .datetime val => some (.datetime val)
  | .amount val => some (.amount val)
  | .balance val => some (.balance val)
  | .balance_pair val => some (.balance_pair val)
  | .string ptr => (h.strings.lookup ptr).map .string
  | .xml_node val => some (.xml_node val)
  | .pointer val => some (.pointer val)
  | .sequence ptr => (h.sequences.lookup ptr).map .sequence

/-- Modelled from the spec: `destroy()`, declared at line 130 and defined
outside the header: the heap memory a STRING or SEQUENCE owns is released; the
other variants own none. -/
def heap.destroy (h : heap) : object → heap
  | .string ptr => { h with strings := h.strings.filter (fun e => e.1 != ptr) }
  | .sequence ptr => { h with sequences := h.sequences.filter (fun e => e.1 != ptr) }
  | _ => h

/-- Modelled from the spec: the copy constructor `value_t(const value_t&)`,
lines 55-58, through `operator=(const value_t&)`, declared at line 133 and
defined outside the header: a deep duplicate, with a new heap allocation for a
String or a Sequence and the same `data` for the other variants.  Copying
through a pointer that leads nowhere has no defined meaning. -/
def heap.copy (h : heap) (val : object) : heap × result object :=
  match val with
  | .string ptr =>
    match h.strings.lookup ptr with
    | some s =>
      ({ h with strings := (h.next, s) :: h.strings, next := h.next + 1 },
        .ok (.string h.next))
    | none => (h, .undefined)
  | .sequence ptr =>
    match h.sequences.lookup ptr with
    | some xs =>
      ({ h with sequences := (h.next, xs) :: h.sequences, next := h.next + 1 },
        .ok (.sequence h.next))
    | none => (h, .undefined)
  | other => (h, .ok other)

/-- The member `set_string(const string& str)`, lines 271-280, in memory, for
a `str` that lives outside the receiver's storage: a receiver that is not a
STRING is destroyed and made to point to a new string holding `str`; the
string a STRING points to is overwritten with `str`. -/
def heap.set_string (h : heap) (self : object) (str : String) : heap × object :=
  match self with
  | .string ptr => ({ h with strings := (ptr, str) :: h.strings }, .string ptr)
  | other =>
    let h1 := h.destroy other
    ({ h1 with strings := (h1.next, str) :: h1.strings, next := h1.next + 1 },
      .string h1.next)

/-- Modelled from the spec: `to_sequence()` (line 291) in memory: the stored
pointer of a SEQUENCE, a value-type error for any other variant. -/
def heap.to_sequence (_h : heap) (self : object) : result Nat :=
  match self with
  | .sequence ptr => .ok ptr
  | _ => .value_error

/-- The member `push_back(const value_t& val)`, lines 299-303, in memory:
`to_sequence()`, then `seq->push_back(val)` on the vector behind the pointer,
which stores a copy of `val`.  A pointer that leads nowhere gives no defined
meaning. -/
def heap.push_back (h : heap) (self : object) (val : value_t) : heap × result Unit :=
  match h.to_sequence self with
  | .ok ptr =>
    match h.sequences.lookup ptr with
    | some xs => ({ h with sequences := (ptr, xs ++ [val.copy]) :: h.sequences }, .ok ())
    | none => (h, .undefined)
  | .value_error => (h, .value_error)
  | .undefined => (h, .undefined)

/-- The shape shared by `negate()`, `cast()` and `reduce()` (lines 355-359,
370-374, 386-390) in memory: `temp` is a copy of the receiver; the in-place
operation `op` runs on `temp`, giving the store and `temp` after it and
whether it completed; on completion `temp` is the value returned, on a
value-type error `temp` is destroyed as the exception leaves the function. -/
def heap.on_copy (op : heap → object → heap × object × result Unit) (h : heap)
    (self : object) : heap × result object :=
  match h.copy self with
  | (h1, .ok temp) =>
    match op h1 temp with
    | (h2, temp1, .ok ()) => (h2, .ok temp1)
    | (h2, temp1, .value_error) => (h2.destroy temp1, .value_error)
    | (h2, _, .undefined) => (h2, .undefined)
  | (h1, .value_error) => (h1, .value_error)
  | (h1, .undefined) => (h1, .undefined)

/-- The member `negate()`, lines 355-359, in memory; `in_place_negate` is
declared at line 360 and defined outside the header. -/
def heap.negate (in_place_negate : heap → object → heap × object × result Unit)
    (h : heap) (self : object) : heap × result object :=
  h.on_copy in_place_negate self

/-- The member `cast(type_t cast_type)`, lines 370-374, in memory;
`in_place_cast` is declared at line 364 and defined outside the header. -/
def heap.cast (in_place_cast : type_t → heap → object → heap × object × result Unit)
    (h : heap) (self : object) (cast_type : type_t) : heap × result object :=
  h.on_copy (in_place_cast cast_type) self

/-- The member `reduce()`, lines 386-390, in memory; `in_place_reduce` is
declared at line 385 and defined outside the header. -/
def heap.reduce (in_place_reduce : heap → object → heap × object × result Unit)
    (h : heap) (self : object) : heap × result object :=
  h.on_copy in_place_reduce self

/-- An in-place operation keeps to its receiver: it leaves the strings and
vectors at every address in use other than the receiver's as they are, and
leaves the receiver owning the address it owned or one not in use before. -/
def keeps_to_receiver (op : heap → object → heap × object × result Unit) : Prop :=
  ∀ (h : heap) (o : object),
    (∀ p, p < h.next → o.ptr ≠ some p →
      (op h o).1.strings.lookup p = h.strings.lookup p ∧
      (op h o).1.sequences.lookup p = h.sequences.lookup p) ∧
    (∀ q, (op h o).2.1.ptr = some q → o.ptr = some q ∨ h.next ≤ q)

/-- The in-place operation that is `set_string(str)` and completes. -/
def set_string_in_place (str : String) (h : heap) (o : object) :
    heap × object × result Unit :=
  ((h.set_string o str).1, (h.set_string o str).2, .ok ())

/-- The in-place operation that changes nothing and raises a value-type
error. -/
def raise_in_place (h : heap) (o : object) : heap × object × result Unit :=
  (h, o, .value_error)

/-- A store holding the string "abc" at address 0 and the vector of Integer 7
at address 1. -/
def sample_heap : heap := ⟨[(0, "abc")], [(1, [value_t.integer 7])], 2⟩

/-! ## Sample inputs -/

/-- The amount 0 USD. -/
def zero_usd : amount_t := ⟨0, "USD"⟩

/-- The balance USD:5, EUR:3. -/
def usd5_eur3 : balance_t := ⟨[("USD", ⟨5, "USD"⟩), ("EUR", ⟨3, "EUR"⟩)]⟩

/-- The balance USD:5, EUR:0: two entries, one of them zero. -/
def usd5_eur0 : balance_t := ⟨[("USD", ⟨5, "USD"⟩), ("EUR", ⟨0, "EUR"⟩)]⟩

/-- The pair of quantity USD:5, EUR:3 whose cost basis is present and is the
empty balance. -/
def pair_zero_cost : balance_pair_t := ⟨usd5_eur3, some ⟨[]⟩⟩

/-- The pair of quantity USD:5, EUR:3 and cost basis USD:5, EUR:0. -/
def pair_with_cost : balance_pair_t := ⟨usd5_eur3, some usd5_eur0⟩

/-- The pair of quantity USD:5, EUR:3 without cost basis. -/
def pair_no_cost : balance_pair_t := ⟨usd5_eur3, none⟩

/-- The balance USD:5. -/
def usd5_only : balance_t := ⟨[("USD", ⟨5, "USD"⟩)]⟩

/-- A value of variant Sequence whose only element is a String of text "abc". -/
def sequence_of_abc : value_t := .sequence [.string "abc"]

/-- A three-way comparison of Integers that rejects every other pair of
variants, to try `operator==` and `operator<` on. -/
def compare_integers (a b : value_t) : result Int :=
  match a, b with
  | .integer x, .integer y => .ok (if x < y then -1 else if x = y then 0 else 1)
  | _, _ => .value_error

/-- The amount 5 USD. -/
def usd5 : amount_t := ⟨5, "USD"⟩

/-- The balance USD:10, EUR:3. -/
def usd10_eur3 : balance_t := ⟨[("USD", ⟨10, "USD"⟩), ("EUR", ⟨3, "EUR"⟩)]⟩

/-! ## Shared lemmas -/

theorem ctor_by_assignment_none {α : Type} (copy_assign : value_t → value_t → value_t)
    (junk : Int) (fuel : Nat) (val : α) :
    ctor_by_assignment copy_assign junk fuel val = none := by
  induction fuel with
  | zero => rfl
  | succ n ih => simp [ctor_by_assignment, ih]

theorem assign_balance_none (copy_assign : value_t → value_t → value_t) (junk : Int)
    (fuel : Nat) (self : value_t) (b : balance_t) :
    self.assign_balance copy_assign junk fuel b = none := by
  simp [value_t.assign_balance, value_t.ctor_balance, ctor_by_assignment_none]

theorem assign_balance_pair_none (copy_assign : value_t → value_t → value_t) (junk : Int)
    (fuel : Nat) (self : value_t) (p : balance_pair_t) :
    self.assign_balance_pair copy_assign junk fuel p = none := by
  simp [value_t.assign_balance_pair, value_t.ctor_balance_pair, ctor_by_assignment_none]

/-! ## Installing an Amount -/

/-- C1, as stated, fails: the value constructed from the amount 0 USD, which
is exactly zero, has variant Amount and holds that zero amount; it is not
Integer 0. -/
theorem C1_ctor_amount_keeps_zero :
    zero_usd.realzero = true ∧
    (value_t.ctor_amount zero_usd).type = type_t.AMOUNT ∧
    value_t.ctor_amount zero_usd = value_t.amount zero_usd ∧
    value_t.ctor_amount zero_usd ≠ value_t.integer 0 := by
  refine ⟨by decide, rfl, rfl, ?_⟩
  simp [value_t.ctor_amount]

/-- C1, amended: every constructor that takes an Amount, or makes one from an
unsigned integer, a floating-point number, a string or a C string, yields a
value of variant Amount holding that amount, zero or not.  Assigning an Amount
`a` is `operator=(const value_t&)` applied to the value constructed from `a`:
what is assigned is that Amount-tagged value, and under the copy assignment of
the specification the receiver afterwards has variant Amount and holds `a`,
zero or not. -/
theorem C1_install_amount (copy_assign : value_t → value_t → value_t) (self : value_t)
    (a : amount_t) :
    value_t.ctor_amount a = value_t.amount a ∧
    (∀ (of_ulong : Nat → amount_t) (n : Nat),
      value_t.ctor_ulong of_ulong n = value_t.amount (of_ulong n)) ∧
    (∀ (D : Type) (of_double : D → amount_t) (d : D),
      value_t.ctor_double of_double d = value_t.amount (of_double d)) ∧
    (∀ (of_string : String → Option amount_t) (junk : Int) (s : String),
      value_t.ctor_string of_string junk s = (of_string s).map value_t.amount) ∧
    (∀ (of_cstr : String → Option amount_t) (s : String),
      value_t.ctor_cstr of_cstr s = (of_cstr s).map value_t.amount) ∧
    self.assign_amount copy_assign a = copy_assign self (value_t.amount a) ∧
    self.assign_amount value_t.copy_assign a = value_t.amount a ∧
    self.assign_amount value_t.copy_assign zero_usd = value_t.amount zero_usd := by
  refine ⟨rfl, fun _ _ => rfl, fun _ _ _ => rfl, fun _ _ _ => ?_, fun _ _ => rfl, rfl, rfl,
    rfl⟩
  simp [value_t.ctor_string]

/-! ## Installing a Balance -/

/-- C2 fails on the header as compiled: installing a Balance, by construction
or by assignment, yields no value, whatever the depth allowed: not Integer 0
for the empty balance, not the Amount for the balance USD:5, not a Balance for
the balance USD:5, EUR:3. -/
theorem C2_install_balance_never_returns (copy_assign : value_t → value_t → value_t)
    (junk : Int) (fuel : Nat) (self : value_t) :
    value_t.ctor_balance copy_assign junk fuel ⟨[]⟩ = none ∧
    value_t.ctor_balance copy_assign junk fuel usd5_only = none ∧
    value_t.ctor_balance copy_assign junk fuel usd5_eur3 = none ∧
    self.assign_balance copy_assign junk fuel ⟨[]⟩ = none ∧
    self.assign_balance copy_assign junk fuel usd5_only = none ∧
    self.assign_balance copy_assign junk fuel usd5_eur3 = none :=
  ⟨ctor_by_assignment_none _ _ _ _, ctor_by_assignment_none _ _ _ _,
   ctor_by_assignment_none _ _ _ _, assign_balance_none _ _ _ _ _,
   assign_balance_none _ _ _ _ _, assign_balance_none _ _ _ _ _⟩

/-- C3 fails on the header as compiled: installing a Balance yields no value
of any variant, so there is no value obtained of which the claim could hold;
so it is for the balance USD:5, EUR:0 and for every other balance. -/
theorem C3_no_value_from_balance (copy_assign : value_t → value_t → value_t)
    (junk : Int) (fuel : Nat) (self : value_t) :
    value_t.ctor_balance copy_assign junk fuel usd5_eur0 = none ∧
    self.assign_balance copy_assign junk fuel usd5_eur0 = none ∧
    (∀ b, ¬ ∃ v, value_t.ctor_balance copy_assign junk fuel b = some v) ∧
    (∀ b, ¬ ∃ v, self.assign_balance copy_assign junk fuel b = some v) := by
  refine ⟨ctor_by_assignment_none _ _ _ _, assign_balance_none _ _ _ _ _, ?_, ?_⟩
  · rintro b ⟨v, hv⟩
    rw [value_t.ctor_balance, ctor_by_assignment_none] at hv
    cases hv
  · rintro b ⟨v, hv⟩
    rw [assign_balance_none] at hv
    cases hv

/-! ## Installing a BalancePair -/

/-- C4 fails on the header as compiled: installing a BalancePair, by
construction or by assignment, yields no value, whatever the depth allowed:
not Integer 0 for the pair of empty quantity, not the installed quantity for
the pair without cost basis, not a BalancePair for the pair with cost
basis. -/
theorem C4_install_balance_pair_never_returns
    (copy_assign : value_t → value_t → value_t) (junk : Int) (fuel : Nat)
    (self : value_t) :
    value_t.ctor_balance_pair copy_assign junk fuel ⟨⟨[]⟩, none⟩ = none ∧
    value_t.ctor_balance_pair copy_assign junk fuel pair_no_cost = none ∧
    value_t.ctor_balance_pair copy_assign junk fuel pair_with_cost = none ∧
    self.assign_balance_pair copy_assign junk fuel ⟨⟨[]⟩, none⟩ = none ∧
    self.assign_balance_pair copy_assign junk fuel pair_no_cost = none ∧
    self.assign_balance_pair copy_assign junk fuel pair_with_cost = none :=
  ⟨ctor_by_assignment_none _ _ _ _, ctor_by_assignment_none _ _ _ _,
   ctor_by_assignment_none _ _ _ _, assign_balance_pair_none _ _ _ _ _,
   assign_balance_pair_none _ _ _ _ _, assign_balance_pair_none _ _ _ _ _⟩

/-- C5 fails on the header as compiled: installing a BalancePair yields no
value of any variant, so there is no value obtained of which the claim could
hold; so it is for the pair whose cost basis is the empty balance and for
every other pair. -/
theorem C5_no_value_from_balance_pair (copy_assign : value_t → value_t → value_t)
    (junk : Int) (fuel : Nat) (self : value_t) :
    value_t.ctor_balance_pair copy_assign junk fuel pair_zero_cost = none ∧
    self.assign_balance_pair copy_assign junk fuel pair_zero_cost = none ∧
    (∀ p, ¬ ∃ v, value_t.ctor_balance_pair copy_assign junk fuel p = some v) ∧
    (∀ p, ¬ ∃ v, self.assign_balance_pair copy_assign junk fuel p = some v) := by
  refine ⟨ctor_by_assignment_none _ _ _ _, assign_balance_pair_none _ _ _ _ _, ?_, ?_⟩
  · rintro p ⟨v, hv⟩
    rw [value_t.ctor_balance_pair, ctor_by_assignment_none] at hv
    cases hv
  · rintro p ⟨v, hv⟩
    rw [assign_balance_pair_none] at hv
    cases hv

/-! ## Sequence access -/

theorem sequence_at_in_range (xs : List value_t) (i : Int) (h0 : 0 ≤ i)
    (h1 : i < xs.length) (h2 : i < 2 ^ 31) :
    sequence_at xs i = result.ok (xs.get ⟨i.toNat, by omega⟩) := by
  have hmod : i % 2 ^ 64 = i := Int.emod_eq_of_lt h0 (by omega)
  have hlt : (i % 2 ^ 64).toNat < xs.length := by rw [hmod]; omega
  unfold sequence_at
  rw [dif_pos hlt]
  simp only [hmod]

theorem sequence_at_out_of_range (xs : List value_t) (i : Int) (hlo : -2 ^ 31 ≤ i)
    (hhi : i < 2 ^ 31) (hlen : xs.length < 2 ^ 63) (h : i < 0 ∨ (xs.length : Int) ≤ i) :
    sequence_at xs i = result.undefined := by
  have hge : ¬ (i % 2 ^ 64).toNat < xs.length := by
    rcases h with h | h
    · have hmod : i % 2 ^ 64 = i + 2 ^ 64 := by
        rw [← Int.add_emod_self]
        exact Int.emod_eq_of_lt (by omega) (by omega)
      rw [hmod]; omega
    · have hmod : i % 2 ^ 64 = i := Int.emod_eq_of_lt (by omega) (by omega)
      rw [hmod]; omega
  unfold sequence_at
  rw [dif_neg hge]

/-- C6, as stated, fails: on the one-element sequence holding Integer 7,
`operator[]` at index 1 and at index -1 raises no value-type error; the vector
is read outside its elements, which has no defined outcome. -/
theorem C6_index_out_of_range_unchecked :
    ((value_t.sequence [value_t.integer 7]).index 1).2 = result.undefined ∧
    ((value_t.sequence [value_t.integer 7]).index (-1)).2 = result.undefined ∧
    ((value_t.sequence [value_t.integer 7]).index 1).2 ≠ result.value_error ∧
    ((value_t.sequence [value_t.integer 7]).index (-1)).2 ≠ result.value_error := by
  have h1 : ((value_t.sequence [value_t.integer 7]).index 1).2 = result.undefined :=
    sequence_at_out_of_range [value_t.integer 7] 1 (by norm_num) (by norm_num)
      (by simp) (Or.inr (by simp))
  have h2 : ((value_t.sequence [value_t.integer 7]).index (-1)).2 = result.undefined := by
    simp only [value_t.index, value_t.to_sequence]
    exact sequence_at_out_of_range [value_t.integer 7] (-1) (by norm_num) (by norm_num)
      (by simp) (Or.inl (by norm_num))
  refine ⟨h1, h2, ?_, ?_⟩
  · rw [h1]; simp
  · rw [h2]; simp

/-- C6, amended: on a value of variant Sequence holding `n` elements,
`operator[](i)` for an `int` index with `0 <= i < n` returns the `i`-th element
and leaves the value as it is; for no index does it raise a value-type error,
and an index outside `0 <= i < n` is an unchecked access to the vector, with no
defined outcome. -/
theorem C6_index (xs : List value_t) (i : Int) (hlo : -2 ^ 31 ≤ i) (hhi : i < 2 ^ 31) :
    ((value_t.sequence xs).index i).1 = value_t.sequence xs ∧
    ((value_t.sequence xs).index i).2 ≠ result.value_error ∧
    (∀ (h0 : 0 ≤ i) (h1 : i < xs.length),
      ((value_t.sequence xs).index i).2 = result.ok (xs.get ⟨i.toNat, by omega⟩)) ∧
    (xs.length < 2 ^ 63 → (i < 0 ∨ (xs.length : Int) ≤ i) →
      ((value_t.sequence xs).index i).2 = result.undefined) := by
  refine ⟨rfl, ?_, fun h0 h1 => sequence_at_in_range xs i h0 h1 hhi,
    fun hlen h => sequence_at_out_of_range xs i hlo hhi hlen h⟩
  show sequence_at xs i ≠ result.value_error
  unfold sequence_at
  split <;> simp

/-- C6, amended, at the sequence of Integer 7 and Integer 8 and index 1. -/
theorem C6_index_witness :
    ((value_t.sequence [value_t.integer 7, value_t.integer 8]).index 1).2 =
      result.ok (value_t.integer 8) :=
  (C6_index [value_t.integer 7, value_t.integer 8] 1 (by norm_num) (by norm_num)).2.2.1
    (by norm_num) (by simp)

/-- C7: on a value whose variant is not Sequence, `size()`, `push_back(x)` and
`operator[](i)` each raise a value-type error and leave the value as it is. -/
theorem C7_not_a_sequence (self : value_t) (h : self.type ≠ type_t.SEQUENCE)
    (x : value_t) (i : Int) :
    self.size = (self, result.value_error) ∧
    self.push_back x = (self, result.value_error) ∧
    self.index i = (self, result.value_error) := by
  cases self <;>
    first
    | exact absurd rfl h
    | exact ⟨rfl, rfl, rfl⟩

/-- C7 at the value Integer 5. -/
theorem C7_not_a_sequence_witness :
    (value_t.integer 5).size = (value_t.integer 5, result.value_error) ∧
    (value_t.integer 5).push_back (value_t.boolean true) =
      (value_t.integer 5, result.value_error) ∧
    (value_t.integer 5).index 0 = (value_t.integer 5, result.value_error) :=
  C7_not_a_sequence (value_t.integer 5) (by decide) (value_t.boolean true) 0

/-- C8: `push_back(x)` on a value of variant Sequence holding `n` elements
succeeds and leaves a Sequence on which `size()` returns `n + 1`, `operator[]`
returns the former element at each index below `n` and `x` at index `n`; on
the empty Sequence, `push_back` followed by `size()` returns 1. -/
theorem C8_push_back (xs : List value_t) (x : value_t) :
    (value_t.sequence xs).push_back x = (value_t.sequence (xs ++ [x]), result.ok ()) ∧
    ((value_t.sequence xs).push_back x).1.type = type_t.SEQUENCE ∧
    ((value_t.sequence xs).push_back x).1.size.2 = result.ok (xs.length + 1) ∧
    (∀ i : Int, 0 ≤ i → i < 2 ^ 31 → i < xs.length →
      (((value_t.sequence xs).push_back x).1.index i).2 =
        ((value_t.sequence xs).index i).2 ∧
      ∃ v, ((value_t.sequence xs).index i).2 = result.ok v) ∧
    (∀ i : Int, i < 2 ^ 31 → i = xs.length →
      (((value_t.sequence xs).push_back x).1.index i).2 = result.ok x) ∧
    ((value_t.sequence []).push_back x).1.size.2 = result.ok 1 := by
  refine ⟨rfl, rfl, ?_, ?_, ?_, rfl⟩
  · show result.ok (xs ++ [x]).length = result.ok (xs.length + 1)
    simp
  · intro i h0 h2 h1
    have hl : i < (xs ++ [x]).length := by simp; omega
    have e1 : (((value_t.sequence xs).push_back x).1.index i).2 =
        result.ok ((xs ++ [x]).get ⟨i.toNat, by omega⟩) :=
      sequence_at_in_range (xs ++ [x]) i h0 hl h2
    have e2 : ((value_t.sequence xs).index i).2 =
        result.ok (xs.get ⟨i.toNat, by omega⟩) :=
      sequence_at_in_range xs i h0 h1 h2
    refine ⟨?_, _, e2⟩
    rw [e1, e2]
    congr 1
    exact List.getElem_append_left (by omega)
  · intro i h2 hi
    have hl : i < (xs ++ [x]).length := by simp; omega
    have e1 : (((value_t.sequence xs).push_back x).1.index i).2 =
        result.ok ((xs ++ [x]).get ⟨i.toNat, by omega⟩) :=
      sequence_at_in_range (xs ++ [x]) i (by omega) hl h2
    rw [e1]
    congr 1
    have : i.toNat = xs.length := by omega
    simp [this]

/-- C8 at the one-element sequence holding Integer 7 and `x` = Integer 9. -/
theorem C8_push_back_witness :
    (((value_t.sequence [value_t.integer 7]).push_back (value_t.integer 9)).1.index 0).2 =
      ((value_t.sequence [value_t.integer 7]).index 0).2 ∧
    (((value_t.sequence [value_t.integer 7]).push_back (value_t.integer 9)).1.index 1).2 =
      result.ok (value_t.integer 9) :=
  ⟨((C8_push_back [value_t.integer 7] (value_t.integer 9)).2.2.2.1 0 (by norm_num)
      (by norm_num) (by simp)).1,
   (C8_push_back [value_t.integer 7] (value_t.integer 9)).2.2.2.2.1 1 (by norm_num)
      (by simp)⟩

/-! ## Construction from nothing and from text -/

/-- C9: a default-constructed value has variant Integer and holds 0. -/
theorem C9_default_is_integer_zero :
    value_t.ctor = value_t.integer 0 ∧ value_t.ctor.type = type_t.INTEGER :=
  ⟨rfl, rfl⟩

/-- C10: constructing a value from a string `s` with the literal flag set
yields a value of variant String whose text is `s`, whatever the amount parser
does; with the flag clear, which is the default, it yields the value of variant
Amount holding the amount parsed from `s` (nothing when the parser throws), and
never a String. -/
theorem C10_ctor_string (of_string : String → Option amount_t) (junk : Int) (s : String) :
    value_t.ctor_string of_string junk s true = some (value_t.string s) ∧
    value_t.ctor_string of_string junk s false = (of_string s).map value_t.amount ∧
    value_t.ctor_string of_string junk s = value_t.ctor_string of_string junk s false ∧
    (value_t.ctor_string of_string junk s).map value_t.type =
      (of_string s).map (fun _ => type_t.AMOUNT) ∧
    (∀ t, value_t.ctor_string of_string junk s ≠ some (value_t.string t)) := by
  refine ⟨rfl, by simp [value_t.ctor_string], rfl, ?_, ?_⟩
  · simp only [value_t.ctor_string, Bool.false_eq_true, if_false]
    cases of_string s <;> rfl
  · intro t ht
    simp only [value_t.ctor_string, Bool.false_eq_true, if_false] at ht
    cases hp : of_string s with
    | none => simp [hp] at ht
    | some a => simp [hp] at ht

/-! ## Comparison -/

/-- C11: whenever `compare(a, b)` returns `c`, `a == b` returns whether
`c == 0` and `a < b` returns whether `c < 0`; `a == b` and `a < b` never both
hold; and each of `==` and `<` raises a value-type error exactly when
`compare` does. -/
theorem C11_eq_lt_from_compare (compare : value_t → value_t → result Int)
    (a b : value_t) :
    (∀ c, compare a b = result.ok c →
      (a.op_eq compare b = result.ok true ↔ c = 0) ∧
      (a.op_eq compare b = result.ok false ↔ c ≠ 0) ∧
      (a.op_lt compare b = result.ok true ↔ c < 0) ∧
      (a.op_lt compare b = result.ok false ↔ ¬ c < 0)) ∧
    ¬ (a.op_eq compare b = result.ok true ∧ a.op_lt compare b = result.ok true) ∧
    (a.op_eq compare b = result.value_error ↔ compare a b = result.value_error) ∧
    (a.op_lt compare b = result.value_error ↔ compare a b = result.value_error) := by
  unfold value_t.op_eq value_t.op_lt
  cases hc : compare a b with
  | ok c =>
    refine ⟨fun c' h => ?_, ?_, by simp, by simp⟩
    · cases h
      simp
    · simp only [result.ok.injEq, decide_eq_true_eq]
      omega
  | value_error => simp
  | undefined => simp

/-- C11 at the Integers 3 and 5 under `compare_integers`, which returns -1. -/
theorem C11_eq_lt_from_compare_witness :
    ((value_t.integer 3).op_eq compare_integers (value_t.integer 5) = result.ok true ↔
      (-1 : Int) = 0) ∧
    ((value_t.integer 3).op_eq compare_integers (value_t.integer 5) = result.ok false ↔
      (-1 : Int) ≠ 0) ∧
    ((value_t.integer 3).op_lt compare_integers (value_t.integer 5) = result.ok true ↔
      (-1 : Int) < 0) ∧
    ((value_t.integer 3).op_lt compare_integers (value_t.integer 5) = result.ok false ↔
      ¬ (-1 : Int) < 0) :=
  (C11_eq_lt_from_compare compare_integers (value_t.integer 3) (value_t.integer 5)).1
    (-1) (by decide)

/-! ## Negation -/

theorem amount_negate_negate (a : amount_t) : a.negate.negate = a := by
  simp [amount_t.negate]

theorem balance_negate_negate (b : balance_t) : b.negate.negate = b := by
  rcases b with ⟨amounts⟩
  simp only [balance_t.negate, List.map_map, balance_t.mk.injEq]
  conv_rhs => rw [← List.map_id amounts]
  apply List.map_congr_left
  intro p _
  simp [amount_negate_negate]

theorem balance_pair_negate_negate (p : balance_pair_t) : p.negate.negate = p := by
  rcases p with ⟨quantity, cost⟩
  cases cost <;> simp [balance_pair_t.negate, balance_negate_negate]

theorem in_place_negate_integer (i : Int) (h : -2 ^ 63 < i ∧ i < 2 ^ 63) :
    (value_t.integer i).in_place_negate = result.ok (value_t.integer (-i)) :=
  if_pos h

theorem in_place_negate_least_long (i : Int) (h : ¬ (-2 ^ 63 < i ∧ i < 2 ^ 63)) :
    (value_t.integer i).in_place_negate = result.undefined :=
  if_neg h

theorem in_place_negate_defined (v : value_t) :
    (∃ w, v.in_place_negate = result.ok w) ↔
      (v.type = type_t.BOOLEAN ∨ v.type = type_t.AMOUNT ∨ v.type = type_t.BALANCE ∨
        v.type = type_t.BALANCE_PAIR ∨ ∃ i, v = value_t.integer i ∧ -2 ^ 63 < i ∧ i < 2 ^ 63) := by
  cases v with
  | integer i =>
    by_cases h : -2 ^ 63 < i ∧ i < 2 ^ 63
    · rw [in_place_negate_integer i h]
      constructor
      · intro _
        exact Or.inr (Or.inr (Or.inr (Or.inr ⟨i, rfl, h⟩)))
      · intro _
        exact ⟨_, rfl⟩
    · rw [in_place_negate_least_long i h]
      constructor
      · rintro ⟨w, hw⟩
        cases hw
      · rintro (h1 | h1 | h1 | h1 | ⟨j, hj, hr⟩)
        · cases h1
        · cases h1
        · cases h1
        · cases h1
        · cases hj
          exact absurd hr h
  | _ => simp [value_t.in_place_negate, value_t.type]

/-- C12: when negation of `v` is defined and yields `w`, negation of `w` is
defined and yields `v` itself, variant and payload; hence
`negate(negate(v)) == v` is true under every `compare` that finds `v` equal to
itself. -/
theorem C12_negate_round_trip (compare : value_t → value_t → result Int) (v w : value_t)
    (h : v.negate.2 = result.ok w) (hrefl : compare v v = result.ok 0) :
    w.negate.2 = result.ok v ∧
    ∃ u, w.negate.2 = result.ok u ∧ u.op_eq compare v = result.ok true := by
  have key : w.negate.2 = result.ok v := by
    simp only [value_t.negate, value_t.copy] at h ⊢
    cases v with
    | boolean b =>
      simp only [value_t.in_place_negate, result.ok.injEq] at h
      subst h
      simp [value_t.in_place_negate]
    | integer i =>
      by_cases hi : -2 ^ 63 < i ∧ i < 2 ^ 63
      · rw [in_place_negate_integer i hi] at h
        cases h
        have hi2 : -2 ^ 63 < -i ∧ -i < 2 ^ 63 := by omega
        rw [in_place_negate_integer (-i) hi2, neg_neg]
      · rw [in_place_negate_least_long i hi] at h
        cases h
    | amount a =>
      simp only [value_t.in_place_negate, result.ok.injEq] at h
      subst h
      simp [value_t.in_place_negate, amount_negate_negate]
    | balance b =>
      simp only [value_t.in_place_negate, result.ok.injEq] at h
      subst h
      simp [value_t.in_place_negate, balance_negate_negate]
    | balance_pair p =>
      simp only [value_t.in_place_negate, result.ok.injEq] at h
      subst h
      simp [value_t.in_place_negate, balance_pair_negate_negate]
    | datetime _ => simp [value_t.in_place_negate] at h
    | string _ => simp [value_t.in_place_negate] at h
    | xml_node _ => simp [value_t.in_place_negate] at h
    | pointer _ => simp [value_t.in_place_negate] at h
    | sequence _ => simp [value_t.in_place_negate] at h
  exact ⟨key, v, key, by simp [value_t.op_eq, hrefl]⟩

/-- C12 at the value holding the balance USD:5, EUR:3, under a `compare` that
finds every value equal to every value. -/
theorem C12_negate_round_trip_witness :
    (value_t.balance usd5_eur3.negate).negate.2 = result.ok (value_t.balance usd5_eur3) ∧
    ∃ u, (value_t.balance usd5_eur3.negate).negate.2 = result.ok u ∧
      u.op_eq (fun _ _ => result.ok 0) (value_t.balance usd5_eur3) = result.ok true :=
  C12_negate_round_trip (fun _ _ => result.ok 0) (value_t.balance usd5_eur3)
    (value_t.balance usd5_eur3.negate) rfl rfl

/-! ## Casting to Amount -/

/-- C13 fails on the header as compiled: no value is ever built from the
single-commodity balance USD:5, so no cast of such a value returns an Amount.
The rest holds: casting a value that holds a Balance of two or more
commodities, USD:5, EUR:3 among them, to AMOUNT raises a value-type error and
leaves the value as it is, and casting the value constructed from the Amount
5 USD to AMOUNT returns that same Amount value. -/
theorem C13_value_from_single_commodity_never_built
    (rest : value_t → type_t → result value_t)
    (copy_assign : value_t → value_t → value_t) (junk : Int) (fuel : Nat) :
    value_t.ctor_balance copy_assign junk fuel usd5_only = none ∧
    (value_t.ctor_balance copy_assign junk fuel usd5_only).map
        (fun v => (v.cast (value_t.in_place_cast rest) type_t.AMOUNT).2) = none ∧
    (value_t.balance usd5_eur3).cast (value_t.in_place_cast rest) type_t.AMOUNT =
      (value_t.balance usd5_eur3, result.value_error) ∧
    (∀ p q l, (value_t.balance ⟨p :: q :: l⟩).cast (value_t.in_place_cast rest)
        type_t.AMOUNT = (value_t.balance ⟨p :: q :: l⟩, result.value_error)) ∧
    (value_t.ctor_amount usd5).cast (value_t.in_place_cast rest) type_t.AMOUNT =
      (value_t.amount usd5, result.ok (value_t.amount usd5)) := by
  have e : value_t.ctor_balance copy_assign junk fuel usd5_only = none :=
    ctor_by_assignment_none _ _ _ _
  refine ⟨e, by rw [e]; rfl, rfl, fun p q l => ?_, rfl⟩
  simp [value_t.cast, value_t.copy, value_t.in_place_cast, value_t.type]

/-! ## Arithmetic -/

/-- C15: for every nonzero Amount `a`, `value(a) -= value(a)` leaves the
receiver as Integer 0, and the value of 5 USD `+=` a value holding the Balance
USD:5, EUR:3 leaves the receiver as a Balance holding USD:10, EUR:3. -/
theorem C15_arithmetic_recanonicalized (rest : value_t → value_t → result value_t) :
    (∀ a : amount_t, a.realzero = false →
      (value_t.ctor_amount a).sub_assign rest (value_t.ctor_amount a) =
        result.ok (value_t.integer 0)) ∧
    (value_t.ctor_amount usd5).add_assign rest (value_t.balance usd5_eur3) =
      result.ok (value_t.balance usd10_eur3) := by
  refine ⟨fun a _ => ?_, rfl⟩
  simp [value_t.sub_assign, value_t.ctor_amount, amount_t.sub, install_amount_spec,
    amount_t.realzero]

/-- C15 at the amount 5 USD. -/
theorem C15_arithmetic_recanonicalized_witness :
    (value_t.ctor_amount usd5).sub_assign (fun _ _ => result.value_error)
        (value_t.ctor_amount usd5) =
      result.ok (value_t.integer 0) :=
  (C15_arithmetic_recanonicalized (fun _ _ => result.value_error)).1 usd5 (by decide)

/-! ## Construction through assignment -/

/-- C17 fails on the header as compiled: whatever the depth allowed, the
constructors from a Balance, a BalancePair, a document-node pointer, an opaque
pointer and a sequence pointer do not return a value; each calls itself again
to convert the argument of `*this = val`. -/
theorem C17_ctor_by_assignment_never_returns (copy_assign : value_t → value_t → value_t)
    (junk : Int) (fuel : Nat) :
    value_t.ctor_balance copy_assign junk fuel usd5_eur3 = none ∧
    (∀ val, value_t.ctor_balance copy_assign junk fuel val = none) ∧
    (∀ val, value_t.ctor_balance_pair copy_assign junk fuel val = none) ∧
    (∀ xml_node, value_t.ctor_xml_node copy_assign junk fuel xml_node = none) ∧
    (∀ item, value_t.ctor_pointer copy_assign junk fuel item = none) ∧
    (∀ seq, value_t.ctor_sequence copy_assign junk fuel seq = none) :=
  ⟨ctor_by_assignment_none _ _ _ _, fun _ => ctor_by_assignment_none _ _ _ _,
   fun _ => ctor_by_assignment_none _ _ _ _, fun _ => ctor_by_assignment_none _ _ _ _,
   fun _ => ctor_by_assignment_none _ _ _ _, fun _ => ctor_by_assignment_none _ _ _ _⟩

/-! ## Installing again -/

theorem lookup_filter_ne {β : Type} (l : List (Nat × β)) (p q : Nat) (hq : q ≠ p) :
    (l.filter (fun e => e.1 != p)).lookup q = l.lookup q := by
  induction l with
  | nil => rfl
  | cons e l ih =>
    rcases e with ⟨k, b⟩
    by_cases hk : k = p
    · subst hk
      have hqk : (q == k) = false := by simpa using hq
      simp [List.filter_cons, List.lookup_cons, hqk, ih]
    · have hkp : (k != p) = true := by simpa using hk
      simp only [List.filter_cons, hkp, if_true, List.lookup_cons, ih]

theorem lookup_some_lt {β : Type} (l : List (Nat × β)) (n p : Nat) (b : β)
    (hl : ∀ e ∈ l, e.1 < n) (hp : l.lookup p = some b) : p < n := by
  induction l with
  | nil => simp at hp
  | cons e l ih =>
    rcases e with ⟨k, c⟩
    by_cases hk : p = k
    · subst hk
      exact hl (p, c) (List.mem_cons_self _ _)
    · have hpk : (p == k) = false := by simpa using hk
      simp only [List.lookup_cons, hpk] at hp
      exact ih (fun e he => hl e (List.mem_cons_of_mem _ he)) hp

theorem read_ptr_lt (h : heap) (hwf : h.wf) (v : object) (a : value_t)
    (hv : h.read v = some a) (p : Nat) (hp : v.ptr = some p) : p < h.next := by
  cases v with
  | string ptr =>
    cases hp
    simp only [heap.read, Option.map_eq_some'] at hv
    obtain ⟨s, hs, _⟩ := hv
    exact lookup_some_lt _ _ _ _ hwf.1 hs
  | sequence ptr =>
    cases hp
    simp only [heap.read, Option.map_eq_some'] at hv
    obtain ⟨s, hs, _⟩ := hv
    exact lookup_some_lt _ _ _ _ hwf.2 hs
  | _ => simp [object.ptr] at hp

theorem read_eq_of_lookup_eq (h h1 : heap) (v : object)
    (hsame : ∀ p, v.ptr = some p →
      h1.strings.lookup p = h.strings.lookup p ∧
      h1.sequences.lookup p = h.sequences.lookup p) :
    h1.read v = h.read v := by
  cases v with
  | string ptr => simp [heap.read, (hsame ptr rfl).1]
  | sequence ptr => simp [heap.read, (hsame ptr rfl).2]
  | _ => rfl

theorem copy_fresh (h : heap) (hwf : h.wf) (v : object) (a : value_t)
    (hv : h.read v = some a) :
    ∃ h1 c, h.copy v = (h1, result.ok c) ∧ c.type = v.type ∧ h1.read c = some a ∧
      h1.read v = some a ∧ ∀ p, v.ptr = some p → p < h1.next ∧ c.ptr ≠ some p := by
  cases v with
  | string ptr =>
    have hlt : ptr < h.next := read_ptr_lt h hwf _ a hv ptr rfl
    simp only [heap.read, Option.map_eq_some'] at hv
    obtain ⟨s, hs, rfl⟩ := hv
    have hne : (ptr == h.next) = false := by simpa using Nat.ne_of_lt hlt
    refine ⟨{ h with strings := (h.next, s) :: h.strings, next := h.next + 1 },
      object.string h.next, by simp only [heap.copy, hs], rfl, ?_, ?_, ?_⟩
    · simp [heap.read, List.lookup_cons]
    · simp [heap.read, List.lookup_cons, hne, hs]
    · intro p hp
      simp only [object.ptr, Option.some.injEq] at hp
      subst hp
      exact ⟨Nat.lt_succ_of_lt hlt, by simp only [object.ptr, ne_eq, Option.some.injEq]; omega⟩
  | sequence ptr =>
    have hlt : ptr < h.next := read_ptr_lt h hwf _ a hv ptr rfl
    simp only [heap.read, Option.map_eq_some'] at hv
    obtain ⟨s, hs, rfl⟩ := hv
    have hne : (ptr == h.next) = false := by simpa using Nat.ne_of_lt hlt
    refine ⟨{ h with sequences := (h.next, s) :: h.sequences, next := h.next + 1 },
      object.sequence h.next, by simp only [heap.copy, hs], rfl, ?_, ?_, ?_⟩
    · simp [heap.read, List.lookup_cons]
    · simp [heap.read, List.lookup_cons, hne, hs]
    · intro p hp
      simp only [object.ptr, Option.some.injEq] at hp
      subst hp
      exact ⟨Nat.lt_succ_of_lt hlt, by simp only [object.ptr, ne_eq, Option.some.injEq]; omega⟩
  | boolean _ => exact ⟨h, _, rfl, rfl, hv, hv, by simp [object.ptr]⟩
  | integer _ => exact ⟨h, _, rfl, rfl, hv, hv, by simp [object.ptr]⟩
  | datetime _ => exact ⟨h, _, rfl, rfl, hv, hv, by simp [object.ptr]⟩
  | amount _ => exact ⟨h, _, rfl, rfl, hv, hv, by simp [object.ptr]⟩
  | balance _ => exact ⟨h, _, rfl, rfl, hv, hv, by simp [object.ptr]⟩
  | balance_pair _ => exact ⟨h, _, rfl, rfl, hv, hv, by simp [object.ptr]⟩
  | xml_node _ => exact ⟨h, _, rfl, rfl, hv, hv, by simp [object.ptr]⟩
  | pointer _ => exact ⟨h, _, rfl, rfl, hv, hv, by simp [object.ptr]⟩

theorem destroy_lookup (h : heap) (t : object) (p : Nat) (hp : t.ptr ≠ some p) :
    (h.destroy t).strings.lookup p = h.strings.lookup p ∧
    (h.destroy t).sequences.lookup p = h.sequences.lookup p := by
  cases t with
  | string ptr =>
    have : p ≠ ptr := fun e => hp (by simp [object.ptr, e])
    exact ⟨lookup_filter_ne _ _ _ this, rfl⟩
  | sequence ptr =>
    have : p ≠ ptr := fun e => hp (by simp [object.ptr, e])
    exact ⟨rfl, lookup_filter_ne _ _ _ this⟩
  | _ => exact ⟨rfl, rfl⟩

theorem destroy_next (h : heap) (t : object) : (h.destroy t).next = h.next := by
  cases t <;> rfl

theorem set_string_keeps_to_receiver (str : String) :
    keeps_to_receiver (set_string_in_place str) := by
  intro h o
  have fresh : ∀ t : object, t.type ≠ type_t.STRING →
      (∀ p, p < h.next → t.ptr ≠ some p →
        (((h.destroy t).next, str) :: (h.destroy t).strings).lookup p =
          h.strings.lookup p ∧
        (h.destroy t).sequences.lookup p = h.sequences.lookup p) := by
    intro t _ p hp hne
    have hpn : (p == (h.destroy t).next) = false := by
      rw [destroy_next]; simpa using Nat.ne_of_lt hp
    rw [List.lookup_cons, hpn]
    exact destroy_lookup h t p hne
  cases o with
  | string ptr =>
    refine ⟨fun p _ hne => ?_, fun q hq => Or.inl hq⟩
    have : (p == ptr) = false := by
      have : p ≠ ptr := fun e => hne (by simp [object.ptr, e])
      simpa using this
    simp [set_string_in_place, heap.set_string, List.lookup_cons, this]
  | sequence ptr =>
    refine ⟨fun p hp hne => fresh (object.sequence ptr) (by simp [object.type]) p hp hne,
      fun q hq => Or.inr ?_⟩
    simp only [set_string_in_place, heap.set_string, object.ptr, Option.some.injEq] at hq
    rw [← hq]; exact Nat.le_of_eq (destroy_next h _).symm
  | boolean _ =>
    exact ⟨fun p hp hne => fresh (object.boolean _) (by simp [object.type]) p hp hne,
      fun q hq => Or.inr (by
        simp only [set_string_in_place, heap.set_string, object.ptr, Option.some.injEq] at hq
        rw [← hq]; exact Nat.le_of_eq (destroy_next h _).symm)⟩
  | integer _ =>
    exact ⟨fun p hp hne => fresh (object.integer _) (by simp [object.type]) p hp hne,
      fun q hq => Or.inr (by
        simp only [set_string_in_place, heap.set_string, object.ptr, Option.some.injEq] at hq
        rw [← hq]; exact Nat.le_of_eq (destroy_next h _).symm)⟩
  | datetime _ =>
    exact ⟨fun p hp hne => fresh (object.datetime _) (by simp [object.type]) p hp hne,
      fun q hq => Or.inr (by
        simp only [set_string_in_place, heap.set_string, object.ptr, Option.some.injEq] at hq
        rw [← hq]; exact Nat.le_of_eq (destroy_next h _).symm)⟩
  | amount _ =>
    exact ⟨fun p hp hne => fresh (object.amount _) (by simp [object.type]) p hp hne,
      fun q hq => Or.inr (by
        simp only [set_string_in_place, heap.set_string, object.ptr, Option.some.injEq] at hq
        rw [← hq]; exact Nat.le_of_eq (destroy_next h _).symm)⟩
  | balance _ =>
    exact ⟨fun p hp hne => fresh (object.balance _) (by simp [object.type]) p hp hne,
      fun q hq => Or.inr (by
        simp only [set_string_in_place, heap.set_string, object.ptr, Option.some.injEq] at hq
        rw [← hq]; exact Nat.le_of_eq (destroy_next h _).symm)⟩
  | balance_pair _ =>
    exact ⟨fun p hp hne => fresh (object.balance_pair _) (by simp [object.type]) p hp hne,
      fun q hq => Or.inr (by
        simp only [set_string_in_place, heap.set_string, object.ptr, Option.some.injEq] at hq
        rw [← hq]; exact Nat.le_of_eq (destroy_next h _).symm)⟩
  | xml_node _ =>
    exact ⟨fun p hp hne => fresh (object.xml_node _) (by simp [object.type]) p hp hne,
      fun q hq => Or.inr (by
        simp only [set_string_in_place, heap.set_string, object.ptr, Option.some.injEq] at hq
        rw [← hq]; exact Nat.le_of_eq (destroy_next h _).symm)⟩
  | pointer _ =>
    exact ⟨fun p hp hne => fresh (object.pointer _) (by simp [object.type]) p hp hne,
      fun q hq => Or.inr (by
        simp only [set_string_in_place, heap.set_string, object.ptr, Option.some.injEq] at hq
        rw [← hq]; exact Nat.le_of_eq (destroy_next h _).symm)⟩

theorem raise_keeps_to_receiver : keeps_to_receiver raise_in_place :=
  fun _ _ => ⟨fun _ _ _ => ⟨rfl, rfl⟩, fun _ hq => Or.inl hq⟩

theorem read_after_local (op : heap → object → heap × object × result Unit)
    (hop : keeps_to_receiver op) (h1 : heap) (c v : object)
    (hsep : ∀ p, v.ptr = some p → p < h1.next ∧ c.ptr ≠ some p) :
    (op h1 c).1.read v = h1.read v ∧
    ∀ p, v.ptr = some p → (op h1 c).2.1.ptr ≠ some p := by
  refine ⟨read_eq_of_lookup_eq _ _ _ (fun p hp => ?_), fun p hp hq => ?_⟩
  · exact (hop h1 c).1 p (hsep p hp).1 (hsep p hp).2
  · rcases (hop h1 c).2 p hq with hc | hge
    · exact (hsep p hp).2 hc
    · have := (hsep p hp).1
      omega

theorem push_back_read_other (h1 : heap) (c v : object) (x : value_t)
    (hsep : ∀ p, v.ptr = some p → c.ptr ≠ some p) :
    (h1.push_back c x).1.read v = h1.read v := by
  apply read_eq_of_lookup_eq
  intro p hp
  cases c with
  | sequence ptr =>
    have hne : (p == ptr) = false := by
      have : p ≠ ptr := fun e => hsep p hp (by simp [object.ptr, e])
      simpa using this
    simp only [heap.push_back, heap.to_sequence]
    cases hl : h1.sequences.lookup ptr with
    | none => exact ⟨rfl, rfl⟩
    | some xs => exact ⟨rfl, by simp [List.lookup_cons, hne]⟩
  | _ => exact ⟨rfl, rfl⟩

theorem set_string_read (h : heap) (o : object) (str : String) :
    (h.set_string o str).1.read (h.set_string o str).2 = some (value_t.string str) ∧
    (h.set_string o str).2.type = type_t.STRING := by
  cases o <;> simp [heap.set_string, heap.read, List.lookup_cons, object.type]

theorem push_back_read_self (h1 : heap) (c : object) (x : value_t) (xs : List value_t)
    (hc : h1.read c = some (value_t.sequence xs)) :
    (h1.push_back c x).2 = result.ok () ∧
    (h1.push_back c x).1.read c = some (value_t.sequence (xs ++ [x])) := by
  cases c with
  | sequence ptr =>
    simp only [heap.read, Option.map_eq_some', value_t.sequence.injEq] at hc
    obtain ⟨ys, hys, rfl⟩ := hc
    simp [heap.push_back, heap.to_sequence, hys, heap.read, List.lookup_cons,
      value_t.copy]
  | string ptr => simp [heap.read] at hc
  | _ => simp [heap.read] at hc

theorem on_copy_of_copy (op : heap → object → heap × object × result Unit) (h h1 : heap)
    (self temp : object) (hcopy : h.copy self = (h1, result.ok temp)) :
    h.on_copy op self =
      (match op h1 temp with
        | (h2, temp1, result.ok ()) => (h2, result.ok temp1)
        | (h2, temp1, result.value_error) => (h2.destroy temp1, result.value_error)
        | (h2, _, result.undefined) => (h2, result.undefined)) := by
  unfold heap.on_copy
  rw [hcopy]

theorem on_copy_keeps (op : heap → object → heap × object × result Unit)
    (hop : keeps_to_receiver op) (h : heap) (hwf : h.wf) (v : object) (a : value_t)
    (hv : h.read v = some a) :
    (h.on_copy op v).1.read v = some a ∧
    ∃ h1 temp, h.copy v = (h1, result.ok temp) ∧ h1.read temp = some a ∧
      (∀ h2 temp1, op h1 temp = (h2, temp1, result.ok ()) →
        h.on_copy op v = (h2, result.ok temp1)) ∧
      (∀ h2 temp1, op h1 temp = (h2, temp1, result.value_error) →
        (h.on_copy op v).2 = result.value_error) := by
  obtain ⟨h1, temp, hcopy, _, htemp, hv1, hsep⟩ := copy_fresh h hwf v a hv
  have hloc := read_after_local op hop h1 temp v hsep
  refine ⟨?_, h1, temp, hcopy, htemp, ?_, ?_⟩
  · rw [on_copy_of_copy op h h1 v temp hcopy]
    rcases hr : op h1 temp with ⟨h2, temp1, r⟩
    rw [hr] at hloc
    cases r with
    | ok u => exact hloc.1.trans hv1
    | undefined => exact hloc.1.trans hv1
    | value_error =>
      show (h2.destroy temp1).read v = some a
      rw [read_eq_of_lookup_eq h2 (h2.destroy temp1) v
        (fun p hp => destroy_lookup h2 temp1 p (hloc.2 p hp))]
      exact hloc.1.trans hv1
  · intro h2 temp1 hr
    rw [on_copy_of_copy op h h1 v temp hcopy, hr]
  · intro h2 temp1 hr
    rw [on_copy_of_copy op h h1 v temp hcopy, hr]

/-! ## Copies -/

/-- C14: the copy constructed from a value `v` has the variant of `v` and
holds what `v` holds, while `v` holds what it held; `set_string` on the copy
and `push_back` on the copy change what the copy holds and leave what `v`
holds as it was. -/
theorem C14_copy_independent (h : heap) (hwf : h.wf) (v : object) (a : value_t)
    (hv : h.read v = some a) :
    a.copy = a ∧
    ∃ h1 c, h.copy v = (h1, result.ok c) ∧
      c.type = v.type ∧ h1.read c = some a ∧ h1.read v = some a ∧
      (∀ p, v.ptr = some p → c.ptr ≠ some p) ∧
      (∀ str,
        (h1.set_string c str).1.read v = some a ∧
        (h1.set_string c str).1.read (h1.set_string c str).2 =
          some (value_t.string str)) ∧
      (∀ x,
        (h1.push_back c x).1.read v = some a ∧
        ∀ xs, a = value_t.sequence xs →
          (h1.push_back c x).2 = result.ok () ∧
          (h1.push_back c x).1.read c = some (value_t.sequence (xs ++ [x]))) := by
  obtain ⟨h1, c, hcopy, hty, hc, hv1, hsep⟩ := copy_fresh h hwf v a hv
  refine ⟨rfl, h1, c, hcopy, hty, hc, hv1, fun p hp => (hsep p hp).2, fun str => ?_,
    fun x => ?_⟩
  · refine ⟨?_, (set_string_read h1 c str).1⟩
    have := (read_after_local (set_string_in_place str)
      (set_string_keeps_to_receiver str) h1 c v hsep).1
    exact this.trans hv1
  · refine ⟨?_, fun xs hxs => ?_⟩
    · rw [push_back_read_other h1 c v x (fun p hp => (hsep p hp).2)]
      exact hv1
    · subst hxs
      exact push_back_read_self h1 c x xs hc

/-- C14 at the value owning the string "abc" at address 0 of `sample_heap`:
the copy owns a new string at address 2. -/
theorem C14_copy_independent_witness :
    ∃ h1 c, sample_heap.copy (object.string 0) = (h1, result.ok c) ∧
      c.type = type_t.STRING ∧ h1.read c = some (value_t.string "abc") ∧
      h1.read (object.string 0) = some (value_t.string "abc") ∧
      (h1.set_string c "xyz").1.read (object.string 0) = some (value_t.string "abc") ∧
      (h1.set_string c "xyz").1.read (h1.set_string c "xyz").2 =
        some (value_t.string "xyz") := by
  obtain ⟨_, h1, c, hcopy, hty, hc, hv, _, hset, _⟩ :=
    C14_copy_independent sample_heap (by simp [heap.wf, sample_heap]) (object.string 0)
      (value_t.string "abc") rfl
  exact ⟨h1, c, hcopy, hty, hc, hv, (hset "xyz").1, (hset "xyz").2⟩

/-! ## Operations on a copy -/

/-- C16: `negate()`, `cast(t)` and `reduce()` leave the receiver holding what
it held, whether the in-place operation completes or raises a value-type
error, for every in-place operation that keeps to its receiver; when the
in-place operation completes on the copy of the receiver, what it leaves of
that copy is the value returned.  In the value model the receiver after the
call is the receiver before it and the outcome is that of the in-place
operation on the copy. -/
theorem C16_operations_on_a_copy
    (in_place_negate in_place_reduce : heap → object → heap × object × result Unit)
    (in_place_cast : type_t → heap → object → heap × object × result Unit)
    (hnegate : keeps_to_receiver in_place_negate)
    (hreduce : keeps_to_receiver in_place_reduce)
    (hcast : ∀ t, keeps_to_receiver (in_place_cast t))
    (h : heap) (hwf : h.wf) (v : object) (a : value_t) (hv : h.read v = some a)
    (t : type_t) :
    ((h.negate in_place_negate v).1.read v = some a ∧
      (h.cast in_place_cast v t).1.read v = some a ∧
      (h.reduce in_place_reduce v).1.read v = some a) ∧
    (∃ h1 temp, h.copy v = (h1, result.ok temp) ∧ h1.read temp = some a ∧
      (∀ h2 temp1, in_place_negate h1 temp = (h2, temp1, result.ok ()) →
        h.negate in_place_negate v = (h2, result.ok temp1)) ∧
      (∀ h2 temp1, in_place_cast t h1 temp = (h2, temp1, result.ok ()) →
        h.cast in_place_cast v t = (h2, result.ok temp1)) ∧
      (∀ h2 temp1, in_place_reduce h1 temp = (h2, temp1, result.ok ()) →
        h.reduce in_place_reduce v = (h2, result.ok temp1)) ∧
      (∀ h2 temp1, in_place_negate h1 temp = (h2, temp1, result.value_error) →
        (h.negate in_place_negate v).2 = result.value_error) ∧
      (∀ h2 temp1, in_place_cast t h1 temp = (h2, temp1, result.value_error) →
        (h.cast in_place_cast v t).2 = result.value_error) ∧
      (∀ h2 temp1, in_place_reduce h1 temp = (h2, temp1, result.value_error) →
        (h.reduce in_place_reduce v).2 = result.value_error)) ∧
    (∀ (x : value_t) (cast_op : value_t → type_t → result value_t)
        (reduce_op : value_t → result value_t),
      x.negate = (x, x.copy.in_place_negate) ∧
      x.cast cast_op t = (x, cast_op x.copy t) ∧
      x.reduce reduce_op = (x, reduce_op x.copy)) := by
  obtain ⟨n1, h1, temp, hcopy, htemp, n2, n3⟩ :=
    on_copy_keeps in_place_negate hnegate h hwf v a hv
  obtain ⟨c1, h1c, tempc, hcopyc, _, c2, c3⟩ :=
    on_copy_keeps (in_place_cast t) (hcast t) h hwf v a hv
  obtain ⟨r1, h1r, tempr, hcopyr, _, r2, r3⟩ :=
    on_copy_keeps in_place_reduce hreduce h hwf v a hv
  have ec : (h1c, tempc) = (h1, temp) := by
    have := hcopyc.symm.trans hcopy
    simpa using this
  have er : (h1r, tempr) = (h1, temp) := by
    have := hcopyr.symm.trans hcopy
    simpa using this
  cases ec
  cases er
  exact ⟨⟨n1, c1, r1⟩, ⟨h1, temp, hcopy, htemp, n2, c2, r2, n3, c3, r3⟩,
    fun _ _ _ => ⟨rfl, rfl, rfl⟩⟩

/-- C16 at the value owning the string "abc" in `sample_heap`, with an
in-place negation that raises and an in-place cast and reduction that are
`set_string("x")`. -/
theorem C16_operations_on_a_copy_witness :
    (sample_heap.negate raise_in_place (object.string 0)).1.read (object.string 0) =
      some (value_t.string "abc") ∧
    (sample_heap.cast (fun _ => set_string_in_place "x") (object.string 0)
      type_t.STRING).1.read (object.string 0) = some (value_t.string "abc") ∧
    (sample_heap.reduce (set_string_in_place "x") (object.string 0)).1.read
      (object.string 0) = some (value_t.string "abc") :=
  (C16_operations_on_a_copy raise_in_place (set_string_in_place "x")
    (fun _ => set_string_in_place "x") raise_keeps_to_receiver
    (set_string_keeps_to_receiver "x") (fun _ => set_string_keeps_to_receiver "x")
    sample_heap (by simp [heap.wf, sample_heap]) (object.string 0)
    (value_t.string "abc") rfl type_t.STRING).1

/-! ## Setting the string -/

/-- C18 fails for a string that lives in the receiver: `set_string(s)` on the
value of variant Sequence whose element holds "abc", with `s` that element's
string, destroys the sequence before it reads `s`, and has no defined outcome.
For a string that lives elsewhere the value afterwards has variant String and
text `s`, whatever it held before, so that a second `set_string(t)` leaves
text `t`; a String set to its own string keeps it. -/
theorem C18_set_string_reads_released_argument (v : value_t) (s t : String) :
    sequence_of_abc.set_string "abc" true = result.undefined ∧
    sequence_of_abc.set_string "abc" true ≠ result.ok (value_t.string "abc") ∧
    v.set_string s false = result.ok (value_t.string s) ∧
    (value_t.string s).set_string s false = v.set_string s false ∧
    (value_t.string s).set_string t false = v.set_string t false ∧
    (value_t.string s).set_string s true = result.ok (value_t.string s) := by
  have pure : ∀ (x : value_t) (u : String),
      x.set_string u false = result.ok (value_t.string u) := by
    intro x u
    cases x <;> rfl
  refine ⟨rfl, ?_, pure v s, by rw [pure, pure], by rw [pure, pure], rfl⟩
  intro h
  cases h

end ledger
